import Mathlib

/-!
Shallow embedding of the zkopru Grove (packages/tree/src/grove.ts, provided as
src/unnamed/part_000) together with the parts of the tree package it imports
(hasher, merkle-proof, light-rollup-tree, nullifier-tree, tree-cache), which
are not included under src/ and are therefore modelled from the specification.
Field elements (Fp) and 256-bit integers (BN) are modelled as Nat; a hasher is
an arbitrary function Nat → Nat → Nat.
-/

/-- Modelled from the spec (§4.1, hasher.ts not under src/): the pre-hash
table of a hasher. preHash 0 is the zero element of the value type and
preHash (k+1) = parentOf (preHash k) (preHash k), the root of an empty
subtree of height k+1. -/
def preHash (h : Nat → Nat → Nat) : Nat → Nat
  | 0 => 0
  | k + 1 => h (preHash h k) (preHash h k)

/-- Modelled from the spec (§4.1): the first depth entries of the pre-hash
table, hasher.preHash.slice(0, -1), used as the initial frontier and as the
default siblings of a reconstructed proof. -/
def preHashList (h : Nat → Nat → Nat) (depth : Nat) : List Nat :=
  (List.range depth).map (preHash h)

/-- Modelled from the spec (§4.1): genesisRoot h = h.preHash[D], the root of
the empty tree of the given depth. -/
def genesisRoot (h : Nat → Nat → Nat) (depth : Nat) : Nat :=
  preHash h depth

/-- Merkle proof value object (merkle-proof.ts, not under src/; shape from the
spec §2 and the uses in grove.ts): root, leaf index, leaf hash and one sibling
per level. -/
structure MerkleProof where
  root : Nat
  index : Nat
  leaf : Nat
  siblings : List Nat
  deriving Repr, DecidableEq

/-- Modelled from the spec (§4.1): fold a leaf up through the levels, pairing
with the sibling on the left or on the right according to the bits of the leaf
index, and return the resulting root. -/
def merkleRootUp (h : Nat → Nat → Nat) : List Nat → Nat → Nat → Nat
  | [], _, leaf => leaf
  | s :: rest, index, leaf =>
    merkleRootUp h rest (index / 2) (if index % 2 = 1 then h s leaf else h leaf s)

/-- Modelled from the spec (§4.1): verifyProof folds the leaf up through D
levels, selecting left/right by bit k of the index, and compares with the
stated root. -/
def verifyProof (h : Nat → Nat → Nat) (proof : MerkleProof) : Bool :=
  merkleRootUp h proof.siblings proof.index proof.leaf == proof.root

/-- Modelled from the spec (§4.1): startingLeafProof h root index siblings
checks the proof of the empty leaf at the given index against the root and
additionally requires siblings[k] = preHash[k] for every level k where bit k
of the index is 0, i.e. every subtree to the right of the index is empty. -/
def startingLeafProof (h : Nat → Nat → Nat) (root index : Nat)
    (siblings : List Nat) : Bool :=
  merkleRootUp h siblings index 0 == root &&
    siblings.enum.all fun kv =>
      decide (index / 2 ^ kv.1 % 2 = 1) || kv.2 == preHash h kv.1

/-- In-memory state of one light rollup tree: the persisted metadata of the
species (root, next free leaf index, frontier siblings) plus the tree depth
and the metadata row id used to key TreeNode rows (spec §3, §4.3). -/
structure TreeData where
  id : Nat
  depth : Nat
  root : Nat
  index : Nat
  siblings : List Nat
  deriving Repr, DecidableEq

/-- Modelled from the spec (§4.3, light-rollup-tree.ts not under src/): one
step of the frontier engine. Starting from a new leaf value, walk upward one
level per frontier entry: a left child (bit 0 of the running index) stores
itself as the sibling of its level and pairs with the empty subtree
preHash[k]; a right child (bit 1) pairs with the stored sibling of its level,
which is kept, as required by the invariant root = foldFrontier(siblings,
index) (spec §3 invariant 1) and by scenarios S2/S3. Returns the new root and
the new frontier. -/
def appendUp (h : Nat → Nat → Nat) : Nat → List Nat → Nat → Nat → Nat × List Nat
  | _, [], _, node => (node, [])
  | k, s :: rest, index, node =>
    if index % 2 = 1 then
      ((appendUp h (k + 1) rest (index / 2) (h s node)).1,
        s :: (appendUp h (k + 1) rest (index / 2) (h s node)).2)
    else
      ((appendUp h (k + 1) rest (index / 2) (h node (preHash h k))).1,
        node :: (appendUp h (k + 1) rest (index / 2) (h node (preHash h k))).2)

/-- Modelled from the spec (§3 invariant 1): foldFrontier. Fold a node value
up through the levels against the frontier: where the running index has bit 1
the stored sibling is the completed left subtree, where it has bit 0 the right
subtree is still empty and preHash[k] is used. The root of the tree equals
foldUp of the empty leaf value at the next free index. -/
def foldUp (h : Nat → Nat → Nat) : Nat → List Nat → Nat → Nat → Nat
  | _, [], _, node => node
  | k, s :: rest, index, node =>
    if index % 2 = 1 then foldUp h (k + 1) rest (index / 2) (h s node)
    else foldUp h (k + 1) rest (index / 2) (h node (preHash h k))

/-- Modelled from the spec (§4.3): append a single leaf hash to the tree,
updating root, frontier and index. -/
def appendLeaf (h : Nat → Nat → Nat) (t : TreeData) (v : Nat) : TreeData :=
  { t with
    root := (appendUp h 0 t.siblings t.index v).1
    siblings := (appendUp h 0 t.siblings t.index v).2
    index := t.index + 1 }

/-- Leaf of a light rollup tree (spec §3): the hash, and the shouldTrack flag
forcing retention. The observation/retention policy itself is out of the
claims and not modelled; the note payload is omitted. -/
structure Leaf where
  hash : Nat
  shouldTrack : Bool := false
  deriving Repr, DecidableEq

/-- Modelled from the spec (§4.3): append a batch of leaves in order. -/
def appendLeaves (h : Nat → Nat → Nat) (t : TreeData) (leaves : List Leaf) : TreeData :=
  leaves.foldl (fun acc l => appendLeaf h acc l.hash) t

/-- Modelled from the spec (§4.3): dryAppend performs the identical
computation on a scratch copy of the frontier and returns the prospective
root and index (index + leaves.length) without touching the transaction or
the cache. -/
def dryAppend (h : Nat → Nat → Nat) (t : TreeData) (leaves : List Leaf) : TreeData :=
  appendLeaves h t leaves

/-- Modelled from the spec (§4.3): latestLeafIndex returns the next free leaf
index. -/
def latestLeafIndex (t : TreeData) : Nat :=
  t.index

/-- Modelled from the spec (§4.3): maxSize returns 2^D. -/
def maxSize (t : TreeData) : Nat :=
  2 ^ t.depth

/-- State invariant of a light rollup tree (spec §3 invariants 1 and 2): the
frontier has one sibling per level and the root is the fold of the frontier
against the empty leaf at the next free index. -/
def Coherent (h : Nat → Nat → Nat) (t : TreeData) : Prop :=
  t.siblings.length = t.depth ∧ t.root = foldUp h 0 t.siblings t.index 0

/-- Math.ceil(a / b) for the non-negative integers appearing in grove.ts. -/
def mathCeilDiv (a b : Nat) : Nat :=
  (a + b - 1) / b

/-- Padded batch length of grove.ts (part_000 lines 206-211 and 261-263):
subTreeSize * Math.ceil(len / subTreeSize). -/
def subTreePaddedLength (subTreeSize len : Nat) : Nat :=
  subTreeSize * mathCeilDiv len subTreeSize

/-- Padding of grove.ts (part_000 lines 265-270): the batch followed by
zero-hash leaves up to the padded length. -/
def paddedLeaves (subTreeSize : Nat) (leaves : List Leaf) : List Leaf :=
  leaves ++ List.replicate (subTreePaddedLength subTreeSize leaves.length - leaves.length)
    { hash := 0 }

/-- Modelled from the spec (§4.5, nullifier-tree.ts not under src/): the root
of the sparse Merkle tree of the given depth over the subtree with the given
base index, where the leaf bit at position p is 1 iff p is among the
nullified keys. -/
def smtRoot (h : Nat → Nat → Nat) : Nat → Nat → List Nat → Nat
  | 0, base, keys => if keys.contains base then 1 else 0
  | d + 1, base, keys => h (smtRoot h d (2 * base) keys) (smtRoot h d (2 * base + 1) keys)

/-- Tree species (database/TreeSpecies): the two light rollup trees keyed in
the LightTree table (part_000 lines 100, 123). -/
inductive TreeSpecies
  | utxo
  | withdrawal
  deriving Repr, DecidableEq

/-- Error taxonomy of the Grove (spec §7), mapped from the thrown messages of
part_000: notInitialized is the message of lines 271 and 299, treeFull the
messages of lines 280 and 308 (whose text names the species),ches
invalidBootstrapProof the message of lines 415 and 466, leafNotFound lines
328 and 368, leafNotCommitted lines 329 and 370, proofUnavailable lines 357
and 398. jsTypeError models the JavaScript TypeError raised when a field
declared with a definite-assignment assertion (utxoTree!, withdrawalTree!) is
dereferenced while still undefined. -/
inductive GroveError
  | notInitialized
  | invalidBootstrapProof
  | treeFull (species : TreeSpecies)
  | leafNotFound
  | leafNotCommitted
  | proofUnavailable
  | jsTypeError
  deriving Repr, DecidableEq

/-- LightTree metadata row (spec §3 and §6): one row per species. -/
structure LightTreeRow where
  root : Nat
  index : Nat
  siblings : List Nat
  start : Nat
  endIndex : Nat
  deriving Repr, DecidableEq

/-- Utxo table row as read by utxoMerkleProof (part_000 lines 325-329): the
leaf hash and the committed index, null while not yet in a committed block. -/
structure UtxoRow where
  hash : Nat
  index : Option Nat
  deriving Repr, DecidableEq

/-- Withdrawal table row as read by withdrawalMerkleProof (part_000 lines
365-370). -/
structure WithdrawalRow where
  withdrawalHash : Nat
  index : Option Nat
  deriving Repr, DecidableEq

/-- TreeNode row (spec §3): heap-indexed internal node of a tree, keyed by
the metadata row id. -/
structure TreeNodeRow where
  treeId : Nat
  nodeIndex : Nat
  value : Nat
  deriving Repr, DecidableEq

/-- Modelled database state: the tables of spec §6 that the claims read.
Nullifier-tree rows are abstracted to the list of nullified keys, and
Bootstrap rows to a count. -/
structure DBState where
  utxoTreeRow : Option LightTreeRow := none
  withdrawalTreeRow : Option LightTreeRow := none
  utxos : List UtxoRow := []
  withdrawals : List WithdrawalRow := []
  treeNodes : List TreeNodeRow := []
  nullifiers : List Nat := []
  bootstraps : Nat := 0
  deriving Repr, DecidableEq

/-- Modelled from the spec (§4.5): the handle to the nullifier tree that
init constructs; its persistent state lives in the database. -/
structure NullifierTreeHandle where
  depth : Nat
  deriving Repr, DecidableEq

/-- GroveConfig (part_000 lines 24-37); hashers as plain functions, the
observation lists omitted (retention is not modelled). -/
structure GroveConfig where
  utxoTreeDepth : Nat
  withdrawalTreeDepth : Nat
  nullifierTreeDepth : Nat
  utxoSubTreeSize : Nat
  withdrawalSubTreeSize : Nat
  utxoHasher : Nat → Nat → Nat
  withdrawalHasher : Nat → Nat → Nat
  nullifierHasher : Nat → Nat → Nat
  fullSync : Bool := false

/-- GrovePatch (part_000 lines 39-44). -/
structure GrovePatch where
  header : Option Nat := none
  utxos : List Leaf := []
  withdrawals : List Leaf := []
  nullifiers : List Nat := []
  deriving Repr, DecidableEq

/-- GroveSnapshot (part_000 lines 46-52). -/
structure GroveSnapshot where
  utxoTreeIndex : Nat
  utxoTreeRoot : Nat
  withdrawalTreeIndex : Nat
  withdrawalTreeRoot : Nat
  nullifierTreeRoot : Option Nat
  deriving Repr, DecidableEq

/-- In-memory state of a Grove (part_000 lines 54-67): the two definite
assignment asserted trees are undefined (none) until init or applyBootstrap
assigns them, the nullifier tree is optional (light mode), and the database
handle. -/
structure GroveState where
  utxoTree : Option TreeData := none
  withdrawalTree : Option TreeData := none
  nullifierTree : Option NullifierTreeHandle := none
  db : DBState := {}
  deriving Repr, DecidableEq

/-- Metadata row id used for the UTXO tree in this model. -/
def utxoTreeRowId : Nat := 0

/-- Metadata row id used for the Withdrawal tree in this model. -/
def withdrawalTreeRowId : Nat := 1

/-- Modelled from the spec (§4.5): dryRunNullify returns the root the
nullifier tree would have after nullifying the given keys, without changing
any state. -/
def dryRunNullify (h : Nat → Nat → Nat) (depth : Nat) (db : DBState)
    (keys : List Nat) : Nat :=
  smtRoot h depth 0 (db.nullifiers ++ keys)

/-- Modelled from the spec (§4.5): nullify persists the nullified keys;
nullifying an already-set key is idempotent and does not raise. -/
def nullify (db : DBState) (keys : List Nat) : DBState :=
  { db with nullifiers := db.nullifiers ++ keys }

/-- Genesis metadata values of a species (part_000 lines 417-427 and 468-479,
no-proof branch): genesis root, index 0, pre-hash frontier. -/
def genesisRow (h : Nat → Nat → Nat) (depth : Nat) : LightTreeRow :=
  { root := genesisRoot h depth
    index := 0
    siblings := preHashList h depth
    start := 0
    endIndex := 0 }

/-- UtxoTree.from / WithdrawalTree.from (part_000 lines 111-120, 133-142):
rehydrate the in-memory tree from a persisted metadata row. -/
def treeFromRow (depth id : Nat) (row : LightTreeRow) : TreeData :=
  { id := id
    depth := depth
    root := row.root
    index := row.index
    siblings := row.siblings }

/-- Metadata write staged by LightRollupTree.append (spec §4.3): the new
root, index and siblings are written into the species' metadata row within
the same transaction. -/
def writeTreeMetadata (cfg : GroveConfig) (species : TreeSpecies) (db : DBState)
    (t : TreeData) : DBState :=
  match species with
  | .utxo =>
    let row0 := db.utxoTreeRow.getD (genesisRow cfg.utxoHasher cfg.utxoTreeDepth)
    let row := { row0 with root := t.root, index := t.index, siblings := t.siblings }
    { db with utxoTreeRow := some row }
  | .withdrawal =>
    let row0 := db.withdrawalTreeRow.getD (genesisRow cfg.withdrawalHasher cfg.withdrawalTreeDepth)
    let row := { row0 with root := t.root, index := t.index, siblings := t.siblings }
    { db with withdrawalTreeRow := some row }

/-- Grove.bootstrapUtxoTree (part_000 lines 402-451): with a proof, require
startingLeafProof before anything is persisted, then upsert the LightTree row
for the UTXO species into this.db (not into a caller transaction) and return
the row; without a proof, start from genesis. -/
def bootstrapUtxoTree (cfg : GroveConfig) (db : DBState) (proof : Option MerkleProof) :
    Except GroveError (LightTreeRow × DBState) :=
  match proof with
  | some p =>
    if startingLeafProof cfg.utxoHasher p.root p.index p.siblings then
      let row : LightTreeRow :=
        { root := p.root, index := p.index, siblings := p.siblings
          start := p.index, endIndex := p.index }
      .ok (row, { db with utxoTreeRow := some row })
    else .error .invalidBootstrapProof
  | none =>
    let row := genesisRow cfg.utxoHasher cfg.utxoTreeDepth
    .ok (row, { db with utxoTreeRow := some row })

/-- Grove.bootstrapWithdrawalTree (part_000 lines 453-503), mirror of
bootstrapUtxoTree for the Withdrawal species. -/
def bootstrapWithdrawalTree (cfg : GroveConfig) (db : DBState) (proof : Option MerkleProof) :
    Except GroveError (LightTreeRow × DBState) :=
  match proof with
  | some p =>
    if startingLeafProof cfg.withdrawalHasher p.root p.index p.siblings then
      let row : LightTreeRow :=
        { root := p.root, index := p.index, siblings := p.siblings
          start := p.index, endIndex := p.index }
      .ok (row, { db with withdrawalTreeRow := some row })
    else .error .invalidBootstrapProof
  | none =>
    let row := genesisRow cfg.withdrawalHasher cfg.withdrawalTreeDepth
    .ok (row, { db with withdrawalTreeRow := some row })

/-- Grove.applyBootstrap (part_000 lines 76-94): bootstrap the UTXO tree from
its starting leaf proof, then the Withdrawal tree from its proof, and only
after both succeed assign the in-memory trees. A thrown error propagates; in
that case neither in-memory tree has been replaced, but any database write
already performed by bootstrapUtxoTree remains (it went to this.db, not to a
caller transaction). -/
def applyBootstrap (cfg : GroveConfig) (g : GroveState)
    (utxoStartingLeafProof withdrawalStartingLeafProof : MerkleProof) :
    Except GroveError Unit × GroveState :=
  match bootstrapUtxoTree cfg g.db (some utxoStartingLeafProof) with
  | .error e => (.error e, g)
  | .ok (urow, db1) =>
    match bootstrapWithdrawalTree cfg db1 (some withdrawalStartingLeafProof) with
    | .error e => (.error e, { g with db := db1 })
    | .ok (wrow, db2) =>
      (.ok (),
        { g with
          db := db2
          utxoTree := some (treeFromRow cfg.utxoTreeDepth utxoTreeRowId urow)
          withdrawalTree := some (treeFromRow cfg.withdrawalTreeDepth withdrawalTreeRowId wrow) })

/-- Grove.init (part_000 lines 96-151): load the metadata row of each species
or bootstrap a genesis row when absent, rehydrate both in-memory trees, and
construct the nullifier tree handle. -/
def initGrove (cfg : GroveConfig) (g : GroveState) : GroveState :=
  let utxoLoaded : LightTreeRow × DBState :=
    match g.db.utxoTreeRow with
    | some row => (row, g.db)
    | none =>
      let row := genesisRow cfg.utxoHasher cfg.utxoTreeDepth
      (row, { g.db with utxoTreeRow := some row })
  let withdrawalLoaded : LightTreeRow × DBState :=
    match utxoLoaded.2.withdrawalTreeRow with
    | some row => (row, utxoLoaded.2)
    | none =>
      let row := genesisRow cfg.withdrawalHasher cfg.withdrawalTreeDepth
      (row, { utxoLoaded.2 with withdrawalTreeRow := some row })
  { utxoTree := some (treeFromRow cfg.utxoTreeDepth utxoTreeRowId utxoLoaded.1)
    withdrawalTree := some (treeFromRow cfg.withdrawalTreeDepth withdrawalTreeRowId withdrawalLoaded.1)
    nullifierTree := some { depth := cfg.nullifierTreeDepth }
    db := withdrawalLoaded.2 }

/-- Grove.appendUTXOs (part_000 lines 257-283): pad the batch with zero-hash
leaves to a multiple of utxoSubTreeSize, fail with notInitialized when the
tree is undefined, fail with the species-naming treeFull error (message
'utxo tree flushes.') when latestLeafIndex + paddedLen exceeds maxSize, and
otherwise append the padded batch and return the tree id. -/
def appendUTXOs (cfg : GroveConfig) (g : GroveState) (utxos : List Leaf) :
    Except GroveError Nat × GroveState :=
  let totalItemLen := subTreePaddedLength cfg.utxoSubTreeSize utxos.length
  let paddedUtxos := paddedLeaves cfg.utxoSubTreeSize utxos
  match g.utxoTree with
  | none => (.error .notInitialized, g)
  | some tree =>
    if latestLeafIndex tree + totalItemLen ≤ maxSize tree then
      let tree' := appendLeaves cfg.utxoHasher tree paddedUtxos
      (.ok tree'.id,
        { g with
          utxoTree := some tree'
          db := writeTreeMetadata cfg .utxo g.db tree' })
    else (.error (.treeFull .utxo), g)

/-- Grove.appendWithdrawals (part_000 lines 285-311), mirror of appendUTXOs
for the Withdrawal species (message 'withdrawal tree flushes'). -/
def appendWithdrawals (cfg : GroveConfig) (g : GroveState) (withdrawals : List Leaf) :
    Except GroveError Nat × GroveState :=
  let totalItemLen := subTreePaddedLength cfg.withdrawalSubTreeSize withdrawals.length
  let paddedWithdrawals := paddedLeaves cfg.withdrawalSubTreeSize withdrawals
  match g.withdrawalTree with
  | none => (.error .notInitialized, g)
  | some tree =>
    if latestLeafIndex tree + totalItemLen ≤ maxSize tree then
      let tree' := appendLeaves cfg.withdrawalHasher tree paddedWithdrawals
      (.ok tree'.id,
        { g with
          withdrawalTree := some tree'
          db := writeTreeMetadata cfg .withdrawal g.db tree' })
    else (.error (.treeFull .withdrawal), g)

/-- Grove.markAsNullified (part_000 lines 313-322): only the full node
manages the nullifier tree; when the handle is absent (light mode) this is a
no-op, otherwise the keys are nullified. -/
def markAsNullified (g : GroveState) (nullifiers : List Nat) : GroveState :=
  match g.nullifierTree with
  | none => g
  | some _ => { g with db := nullify g.db nullifiers }

/-- Grove.recordBootstrap (part_000 lines 227-250), abstracted to the count
of Bootstrap rows: the serialized frontiers carry no information the claims
read. -/
def recordBootstrap (g : GroveState) (header : Option Nat) : GroveState :=
  match header with
  | _ => { g with db := { g.db with bootstraps := g.db.bootstraps + 1 } }

/-- Grove.applyGrovePatch (part_000 lines 172-193): append the padded UTXO
batch, then the padded withdrawal batch, then mark the nullifiers, then in
full-sync mode record a bootstrap row. All database writes are staged into
the caller's TransactionDB; when a step throws, the caller aborts the
transaction, so the returned state keeps the in-memory tree mutations that
happened before the throw but discards the staged database writes. -/
def applyGrovePatch (cfg : GroveConfig) (g : GroveState) (patch : GrovePatch) :
    Except GroveError (Nat × Nat) × GroveState :=
  match appendUTXOs cfg g patch.utxos with
  | (.error e, g1) => (.error e, { g1 with db := g.db })
  | (.ok utxoTreeId, g1) =>
    match appendWithdrawals cfg g1 patch.withdrawals with
    | (.error e, g2) => (.error e, { g2 with db := g.db })
    | (.ok withdrawalTreeId, g2) =>
      let g3 := markAsNullified g2 patch.nullifiers
      let g4 := if cfg.fullSync then recordBootstrap g3 patch.header else g3
      (.ok (utxoTreeId, withdrawalTreeId), g4)

/-- Grove.dryPatch (part_000 lines 195-225): dry-append the raw (untracked)
leaves of the patch to each tree, dry-run the nullifiers when a nullifier
tree is present, and report each tree index as the dry index plus the padded
length minus the raw length. Dereferencing an undefined tree raises a
TypeError. The pair's second component is the Grove state as dryPatch leaves
it. -/
def dryPatch (cfg : GroveConfig) (g : GroveState) (patch : GrovePatch) :
    Except GroveError GroveSnapshot × GroveState :=
  match g.utxoTree with
  | none => (.error .jsTypeError, g)
  | some utxoTree =>
    match g.withdrawalTree with
    | none => (.error .jsTypeError, g)
    | some withdrawalTree =>
      let utxoResult :=
        dryAppend cfg.utxoHasher utxoTree
          (patch.utxos.map fun l => { l with shouldTrack := false })
      let withdrawalResult :=
        dryAppend cfg.withdrawalHasher withdrawalTree
          (patch.withdrawals.map fun l => { l with shouldTrack := false })
      let nullifierRoot := g.nullifierTree.map fun nt =>
        dryRunNullify cfg.nullifierHasher nt.depth g.db patch.nullifiers
      let utxoFixedSizeLen := subTreePaddedLength cfg.utxoSubTreeSize patch.utxos.length
      let withdrawalFixedSizeLen :=
        subTreePaddedLength cfg.withdrawalSubTreeSize patch.withdrawals.length
      (.ok
        { utxoTreeIndex := utxoResult.index + utxoFixedSizeLen - patch.utxos.length
          utxoTreeRoot := utxoResult.root
          withdrawalTreeIndex :=
            withdrawalResult.index + withdrawalFixedSizeLen - patch.withdrawals.length
          withdrawalTreeRoot := withdrawalResult.root
          nullifierTreeRoot := nullifierRoot }, g)

/-- Grove.getSnapshot (part_000 lines 153-160): dryPatch of the empty patch. -/
def getSnapshot (cfg : GroveConfig) (g : GroveState) :
    Except GroveError GroveSnapshot × GroveState :=
  dryPatch cfg g {}

/-- Number of binary digits of toString(2), as used by the level computation
of part_000 lines 339-343 (toString(2) of 0 is the one-character string 0). -/
def bitlen (n : Nat) : Nat :=
  if n = 0 then 1 else Nat.log2 n + 1

/-- Heap-style node indices of the siblings along the path of a leaf (spec
§3 and §4.2): the leaf lives at node 2^depth + leafIndex and the sibling at
level k is the xor-1 neighbour of its level-k ancestor. -/
def siblingNodeIndices (depth leafIndex : Nat) : List Nat :=
  (List.range depth).map fun k => (2 ^ depth + leafIndex) / 2 ^ k ^^^ 1

/-- Modelled from the spec (§4.2, TreeCache/utils not under src/):
getCachedSiblings returns the persisted TreeNode rows of the tree that lie on
the sibling path of the leaf; the node at level D, the root, may also be
returned. -/
def getCachedSiblings (db : DBState) (depth treeId leafIndex : Nat) :
    List TreeNodeRow :=
  db.treeNodes.filter fun n =>
    n.treeId == treeId &&
      ((siblingNodeIndices depth leafIndex).contains n.nodeIndex || n.nodeIndex == 1)

/-- Proof-reconstruction step of part_000 lines 339-349: the level of a node
is 1 + depth - bitlen(nodeIndex); a node at level depth replaces the root, a
node at a valid lower level replaces the default sibling of that level, and a
node below the leaf level (negative level in JavaScript) writes a non-index
property and leaves the array unchanged. -/
def applyCachedNode (depth : Nat) (acc : Nat × List Nat) (n : TreeNodeRow) :
    Nat × List Nat :=
  let level : Int := 1 + (depth : Int) - (bitlen n.nodeIndex : Int)
  if level = (depth : Int) then (n.value, acc.2)
  else if level < 0 then acc
  else (acc.1, acc.2.set level.toNat n.value)

/-- Proof assembly of part_000 lines 337-355: start from the in-memory root
and the pre-hash siblings, overlay every cached node, and build the proof at
the given leaf index. -/
def reconstructProof (h : Nat → Nat → Nat) (depth : Nat) (treeRoot : Nat)
    (cached : List TreeNodeRow) (leafIndex leafHash : Nat) : MerkleProof :=
  { root := (cached.foldl (applyCachedNode depth) (treeRoot, preHashList h depth)).1
    index := leafIndex
    leaf := leafHash
    siblings := (cached.foldl (applyCachedNode depth) (treeRoot, preHashList h depth)).2 }

/-- Grove.utxoMerkleProof (part_000 lines 324-359): look up the Utxo row by
hash (leafNotFound when absent), require a committed index (leafNotCommitted
when null), reconstruct the proof from the cached siblings, and return it
only when verifyProof accepts it (proofUnavailable otherwise). On an
uninitialized Grove the access to this.utxoTree.metadata.id raises a
TypeError. -/
def utxoMerkleProof (cfg : GroveConfig) (g : GroveState) (hash : Nat) :
    Except GroveError MerkleProof :=
  match g.db.utxos.find? (fun u => u.hash == hash) with
  | none => .error .leafNotFound
  | some utxo =>
    match utxo.index with
    | none => .error .leafNotCommitted
    | some index =>
      match g.utxoTree with
      | none => .error .jsTypeError
      | some tree =>
        let cached := getCachedSiblings g.db cfg.utxoTreeDepth tree.id index
        let proof := reconstructProof cfg.utxoHasher cfg.utxoTreeDepth tree.root cached
          index utxo.hash
        if verifyProof cfg.utxoHasher proof then .ok proof
        else .error .proofUnavailable

/-- Grove.withdrawalMerkleProof (part_000 lines 361-400): look up the
Withdrawal row by hash, take the caller-supplied index when given and the
stored index otherwise (leafNotCommitted only when both are absent),
reconstruct the proof at that leaf index with the note hash as the leaf, and
return it only when verifyProof accepts it. -/
def withdrawalMerkleProof (cfg : GroveConfig) (g : GroveState) (noteHash : Nat)
    (index : Option Nat) : Except GroveError MerkleProof :=
  match g.db.withdrawals.find? (fun w => w.withdrawalHash == noteHash) with
  | none => .error .leafNotFound
  | some withdrawal =>
    match (match index with | some i => some i | none => withdrawal.index) with
    | none => .error .leafNotCommitted
    | some leafIndex =>
      match g.withdrawalTree with
      | none => .error .jsTypeError
      | some tree =>
        let cached := getCachedSiblings g.db cfg.withdrawalTreeDepth tree.id leafIndex
        let proof := reconstructProof cfg.withdrawalHasher cfg.withdrawalTreeDepth tree.root
          cached leafIndex noteHash
        if verifyProof cfg.withdrawalHasher proof then .ok proof
        else .error .proofUnavailable

/-- Concrete test hasher used by the witness and counterexample scenarios. -/
def tHash (l r : Nat) : Nat := 2 * l + 3 * r + 1

/-- Test configuration: depth-2 trees with sub-tree size 2 over tHash. -/
def cfgT : GroveConfig :=
  { utxoTreeDepth := 2
    withdrawalTreeDepth := 2
    nullifierTreeDepth := 2
    utxoSubTreeSize := 2
    withdrawalSubTreeSize := 2
    utxoHasher := tHash
    withdrawalHasher := tHash
    nullifierHasher := tHash
    fullSync := false }

/-- Genesis tree of depth 2 over tHash: pre-hashes are 0, 1 and 6. -/
def genesisT (id : Nat) : TreeData :=
  { id := id, depth := 2, root := 6, index := 0, siblings := [0, 1] }

/-- Light-mode (no nullifier tree) initialized grove over the genesis trees. -/
def groveT : GroveState :=
  { utxoTree := some (genesisT utxoTreeRowId)
    withdrawalTree := some (genesisT withdrawalTreeRowId)
    nullifierTree := none
    db := {} }

/-- Test patch: one utxo leaf 5 and one withdrawal leaf 7. -/
def patchT : GrovePatch :=
  { utxos := [{ hash := 5 }], withdrawals := [{ hash := 7 }], nullifiers := [] }

/-- Test patch with nullifiers, for the light-mode scenario. -/
def patchN : GrovePatch :=
  { utxos := [{ hash := 5 }], withdrawals := [{ hash := 7 }], nullifiers := [1, 2] }

/-- Snapshot that dryPatch reports for patchT on groveT. -/
def snapT : GroveSnapshot :=
  { utxoTreeIndex := 2
    utxoTreeRoot := 26
    withdrawalTreeIndex := 2
    withdrawalTreeRoot := 34
    nullifierTreeRoot := none }

/-- Starting leaf proof of the empty depth-2 tree, valid for tHash. -/
def proofOkT : MerkleProof :=
  { root := 6, index := 0, leaf := 0, siblings := [0, 1] }

/-- Corrupted starting leaf proof (root off by one), invalid for tHash. -/
def proofBadT : MerkleProof :=
  { root := 7, index := 0, leaf := 0, siblings := [0, 1] }

/-- Full utxo tree (index 4 = 2^2), used by the overflow scenario. -/
def fullTreeT : TreeData :=
  { id := utxoTreeRowId, depth := 2, root := 99, index := 4, siblings := [3, 4] }

/-- Grove with a committed Utxo row for the empty leaf at index 0. -/
def groveProofT : GroveState :=
  { groveT with db := { groveT.db with utxos := [{ hash := 0, index := some 0 }] } }

/-- Grove with a Withdrawal row whose stored index 3 differs from the index
supplied by the caller in the precedence scenario. -/
def groveWdT : GroveState :=
  { groveT with db :=
    { groveT.db with withdrawals := [{ withdrawalHash := 0, index := some 3 }] } }

/-- Decidability of the tree invariant, so that concrete instances can be
checked by evaluation. -/
instance (h : Nat → Nat → Nat) (t : TreeData) : Decidable (Coherent h t) :=
  inferInstanceAs
    (Decidable (t.siblings.length = t.depth ∧ t.root = foldUp h 0 t.siblings t.index 0))

theorem appendUp_fst (h : Nat → Nat → Nat) (sibs : List Nat) :
    ∀ (k i v : Nat), (appendUp h k sibs i v).1 = foldUp h k sibs i v := by
  induction sibs with
  | nil => intro k i v; rfl
  | cons s rest ih =>
    intro k i v
    by_cases hp : i % 2 = 1
    · simp only [appendUp, foldUp, if_pos hp]
      exact ih (k + 1) (i / 2) (h s v)
    · simp only [appendUp, foldUp, if_neg hp]
      exact ih (k + 1) (i / 2) (h v (preHash h k))

theorem appendUp_snd_length (h : Nat → Nat → Nat) (sibs : List Nat) :
    ∀ (k i v : Nat), (appendUp h k sibs i v).2.length = sibs.length := by
  induction sibs with
  | nil => intro k i v; rfl
  | cons s rest ih =>
    intro k i v
    by_cases hp : i % 2 = 1
    · simp only [appendUp, if_pos hp, List.length_cons]
      rw [ih (k + 1) (i / 2) (h s v)]
    · simp only [appendUp, if_neg hp, List.length_cons]
      rw [ih (k + 1) (i / 2) (h v (preHash h k))]

theorem foldUp_appendUp_same (h : Nat → Nat → Nat) (sibs : List Nat) :
    ∀ (k i v : Nat), foldUp h k (appendUp h k sibs i v).2 i v = foldUp h k sibs i v := by
  induction sibs with
  | nil => intro k i v; rfl
  | cons s rest ih =>
    intro k i v
    by_cases hp : i % 2 = 1
    · simp only [appendUp, foldUp, if_pos hp]
      exact ih (k + 1) (i / 2) (h s v)
    · simp only [appendUp, foldUp, if_neg hp]
      exact ih (k + 1) (i / 2) (h v (preHash h k))

theorem foldUp_appendUp_succ (h : Nat → Nat → Nat) (sibs : List Nat) :
    ∀ (k i v : Nat), i + 1 < 2 ^ sibs.length →
      foldUp h k (appendUp h k sibs i v).2 (i + 1) (preHash h k) = foldUp h k sibs i v := by
  induction sibs with
  | nil =>
    intro k i v hb
    simp only [List.length_nil, pow_zero] at hb
    omega
  | cons s rest ih =>
    intro k i v hb
    have hlen : 2 ^ (s :: rest).length = 2 * 2 ^ rest.length := by
      simp [List.length_cons, pow_succ, Nat.mul_comm]
    by_cases hp : i % 2 = 1
    · have h1 : (i + 1) % 2 = 0 := by omega
      have h2 : (i + 1) / 2 = i / 2 + 1 := by omega
      have h3 : i / 2 + 1 < 2 ^ rest.length := by
        rw [hlen] at hb
        omega
      simp only [appendUp, foldUp, if_pos hp, if_neg (by omega : ¬ (i + 1) % 2 = 1), h2]
      exact ih (k + 1) (i / 2) (h s v) h3
    · have h1 : (i + 1) % 2 = 1 := by omega
      have h2 : (i + 1) / 2 = i / 2 := by omega
      simp only [appendUp, foldUp, if_neg hp, if_pos h1, h2]
      exact foldUp_appendUp_same h rest (k + 1) (i / 2) (h v (preHash h k))

theorem appendLeaf_root (h : Nat → Nat → Nat) (t : TreeData) (v : Nat) :
    (appendLeaf h t v).root = foldUp h 0 t.siblings t.index v := by
  simp [appendLeaf, appendUp_fst]

theorem appendLeaf_coherent (h : Nat → Nat → Nat) (t : TreeData) (v : Nat)
    (hc : Coherent h t) (hb : t.index + 1 < 2 ^ t.depth) :
    Coherent h (appendLeaf h t v) := by
  obtain ⟨hlen, _⟩ := hc
  constructor
  · simpa [appendLeaf, appendUp_snd_length] using hlen
  · have hb' : t.index + 1 < 2 ^ t.siblings.length := by rw [hlen]; exact hb
    have key := foldUp_appendUp_succ h t.siblings 0 t.index v hb'
    have : (appendLeaf h t v).root = foldUp h 0 t.siblings t.index v := appendLeaf_root h t v
    rw [this, ← key]
    rfl

theorem appendLeaves_index (h : Nat → Nat → Nat) (leaves : List Leaf) :
    ∀ (t : TreeData), (appendLeaves h t leaves).index = t.index + leaves.length := by
  induction leaves with
  | nil => intro t; simp [appendLeaves]
  | cons l rest ih =>
    intro t
    have step : appendLeaves h t (l :: rest) = appendLeaves h (appendLeaf h t l.hash) rest := by
      simp [appendLeaves]
    rw [step, ih]
    simp [appendLeaf]
    omega

theorem appendLeaves_depth (h : Nat → Nat → Nat) (leaves : List Leaf) :
    ∀ (t : TreeData), (appendLeaves h t leaves).depth = t.depth := by
  induction leaves with
  | nil => intro t; rfl
  | cons l rest ih =>
    intro t
    have step : appendLeaves h t (l :: rest) = appendLeaves h (appendLeaf h t l.hash) rest := by
      simp [appendLeaves]
    rw [step, ih]
    rfl

theorem appendLeaves_coherent (h : Nat → Nat → Nat) (leaves : List Leaf) :
    ∀ (t : TreeData), Coherent h t → t.index + leaves.length < 2 ^ t.depth →
      Coherent h (appendLeaves h t leaves) := by
  induction leaves with
  | nil => intro t hc _; simpa [appendLeaves] using hc
  | cons l rest ih =>
    intro t hc hb
    simp only [List.length_cons] at hb
    have h1 : t.index + 1 < 2 ^ t.depth := by omega
    have hc' := appendLeaf_coherent h t l.hash hc h1
    have hb' : (appendLeaf h t l.hash).index + rest.length < 2 ^ (appendLeaf h t l.hash).depth := by
      simp only [appendLeaf]
      omega
    have step : appendLeaves h t (l :: rest) = appendLeaves h (appendLeaf h t l.hash) rest := by
      simp [appendLeaves]
    rw [step]
    exact ih _ hc' hb'

theorem appendLeaves_replicate_zero_root (h : Nat → Nat → Nat) (m : Nat) :
    ∀ (t : TreeData), Coherent h t → t.index + m ≤ 2 ^ t.depth →
      (appendLeaves h t (List.replicate m { hash := 0 })).root = t.root := by
  induction m with
  | zero => intro t _ _; rfl
  | succ n ih =>
    intro t hc hb
    have hzr : (appendLeaf h t 0).root = t.root := by
      rw [appendLeaf_root]
      exact hc.2.symm
    have step : appendLeaves h t (List.replicate (n + 1) ({ hash := 0 } : Leaf)) =
        appendLeaves h (appendLeaf h t 0) (List.replicate n ({ hash := 0 } : Leaf)) := by
      simp [List.replicate_succ, appendLeaves]
    rw [step]
    rcases Nat.eq_zero_or_pos n with hn | hn
    · subst hn
      simpa [appendLeaves] using hzr
    · have h1 : t.index + 1 < 2 ^ t.depth := by omega
      have hc' := appendLeaf_coherent h t 0 hc h1
      have hb' : (appendLeaf h t 0).index + n ≤ 2 ^ (appendLeaf h t 0).depth := by
        simp only [appendLeaf]
        omega
      rw [ih _ hc' hb']
      exact hzr

theorem appendLeaves_append_split (h : Nat → Nat → Nat) (t : TreeData)
    (l1 l2 : List Leaf) :
    appendLeaves h t (l1 ++ l2) = appendLeaves h (appendLeaves h t l1) l2 := by
  simp [appendLeaves]

theorem appendLeaves_padding_root (h : Nat → Nat → Nat) (t : TreeData)
    (leaves : List Leaf) (m : Nat) (hc : Coherent h t)
    (hb : t.index + leaves.length + m ≤ 2 ^ t.depth) :
    (appendLeaves h t (leaves ++ List.replicate m { hash := 0 })).root =
      (appendLeaves h t leaves).root := by
  rw [appendLeaves_append_split]
  rcases Nat.eq_zero_or_pos m with hm | hm
  · subst hm; rfl
  · have hlt : t.index + leaves.length < 2 ^ t.depth := by omega
    have hc1 := appendLeaves_coherent h leaves t hc hlt
    have hb1 : (appendLeaves h t leaves).index + m ≤ 2 ^ (appendLeaves h t leaves).depth := by
      rw [appendLeaves_index, appendLeaves_depth]
      omega
    exact appendLeaves_replicate_zero_root h m _ hc1 hb1

theorem appendLeaves_map_track (h : Nat → Nat → Nat) (leaves : List Leaf) :
    ∀ (t : TreeData),
      appendLeaves h t (leaves.map fun l => { l with shouldTrack := false }) =
        appendLeaves h t leaves := by
  induction leaves with
  | nil => intro t; rfl
  | cons l rest ih =>
    intro t
    simp only [List.map_cons, appendLeaves, List.foldl_cons]
    exact ih (appendLeaf h t l.hash)

theorem mathCeilDiv_zero_left (b : Nat) : mathCeilDiv 0 b = 0 := by
  cases b with
  | zero => rfl
  | succ n =>
    simp only [mathCeilDiv]
    rw [Nat.div_eq_of_lt]
    omega

theorem le_subTreePaddedLength (s n : Nat) (hs : 0 < s) :
    n ≤ subTreePaddedLength s n := by
  by_contra hlt
  push_neg at hlt
  have h2 : s * mathCeilDiv n s + s ≤ n + s - 1 := by
    have hx : subTreePaddedLength s n < n := hlt
    simp only [subTreePaddedLength] at hx
    omega
  have h1 : (mathCeilDiv n s + 1) * s ≤ n + s - 1 := by
    rw [Nat.succ_mul, Nat.mul_comm]
    omega
  have h3 : mathCeilDiv n s + 1 ≤ (n + s - 1) / s := (Nat.le_div_iff_mul_le hs).2 h1
  simp only [mathCeilDiv] at h3
  omega

theorem paddedLeaves_length (s : Nat) (leaves : List Leaf) (hs : 0 < s) :
    (paddedLeaves s leaves).length = subTreePaddedLength s leaves.length := by
  have := le_subTreePaddedLength s leaves.length hs
  simp only [paddedLeaves, List.length_append, List.length_replicate]
  omega

theorem subTreePaddedLength_zero (s : Nat) : subTreePaddedLength s 0 = 0 := by
  simp [subTreePaddedLength, mathCeilDiv_zero_left]

theorem writeTreeMetadata_nullifiers (cfg : GroveConfig) (sp : TreeSpecies)
    (db : DBState) (t : TreeData) :
    (writeTreeMetadata cfg sp db t).nullifiers = db.nullifiers := by
  cases sp <;> rfl

theorem appendUTXOs_overflow (cfg : GroveConfig) (ut : TreeData) (gw : Option TreeData)
    (nt : Option NullifierTreeHandle) (db : DBState) (utxos : List Leaf)
    (hov : 2 ^ ut.depth < ut.index + subTreePaddedLength cfg.utxoSubTreeSize utxos.length) :
    appendUTXOs cfg ⟨some ut, gw, nt, db⟩ utxos =
      (.error (.treeFull .utxo), ⟨some ut, gw, nt, db⟩) := by
  unfold appendUTXOs
  simp only [latestLeafIndex, maxSize]
  rw [if_neg (by omega)]

theorem appendUTXOs_fits (cfg : GroveConfig) (ut : TreeData) (gw : Option TreeData)
    (nt : Option NullifierTreeHandle) (db : DBState) (utxos : List Leaf)
    (hfit : ut.index + subTreePaddedLength cfg.utxoSubTreeSize utxos.length ≤ 2 ^ ut.depth) :
    appendUTXOs cfg ⟨some ut, gw, nt, db⟩ utxos =
      (.ok (appendLeaves cfg.utxoHasher ut (paddedLeaves cfg.utxoSubTreeSize utxos)).id,
        ⟨some (appendLeaves cfg.utxoHasher ut (paddedLeaves cfg.utxoSubTreeSize utxos)), gw, nt,
          writeTreeMetadata cfg .utxo db
            (appendLeaves cfg.utxoHasher ut (paddedLeaves cfg.utxoSubTreeSize utxos))⟩) := by
  unfold appendUTXOs
  simp only [latestLeafIndex, maxSize]
  rw [if_pos hfit]

theorem appendWithdrawals_overflow (cfg : GroveConfig) (gu : Option TreeData)
    (wt : TreeData) (nt : Option NullifierTreeHandle) (db : DBState)
    (withdrawals : List Leaf)
    (hov : 2 ^ wt.depth < wt.index + subTreePaddedLength cfg.withdrawalSubTreeSize withdrawals.length) :
    appendWithdrawals cfg ⟨gu, some wt, nt, db⟩ withdrawals =
      (.error (.treeFull .withdrawal), ⟨gu, some wt, nt, db⟩) := by
  unfold appendWithdrawals
  simp only [latestLeafIndex, maxSize]
  rw [if_neg (by omega)]

theorem appendWithdrawals_fits (cfg : GroveConfig) (gu : Option TreeData)
    (wt : TreeData) (nt : Option NullifierTreeHandle) (db : DBState)
    (withdrawals : List Leaf)
    (hfit : wt.index + subTreePaddedLength cfg.withdrawalSubTreeSize withdrawals.length ≤ 2 ^ wt.depth) :
    appendWithdrawals cfg ⟨gu, some wt, nt, db⟩ withdrawals =
      (.ok (appendLeaves cfg.withdrawalHasher wt (paddedLeaves cfg.withdrawalSubTreeSize withdrawals)).id,
        ⟨gu, some (appendLeaves cfg.withdrawalHasher wt (paddedLeaves cfg.withdrawalSubTreeSize withdrawals)), nt,
          writeTreeMetadata cfg .withdrawal db
            (appendLeaves cfg.withdrawalHasher wt (paddedLeaves cfg.withdrawalSubTreeSize withdrawals))⟩) := by
  unfold appendWithdrawals
  simp only [latestLeafIndex, maxSize]
  rw [if_pos hfit]

theorem applyGrovePatch_utxo_full (cfg : GroveConfig) (ut wt : TreeData)
    (nt : Option NullifierTreeHandle) (db : DBState) (P : GrovePatch)
    (hov : 2 ^ ut.depth < ut.index + subTreePaddedLength cfg.utxoSubTreeSize P.utxos.length) :
    applyGrovePatch cfg ⟨some ut, some wt, nt, db⟩ P =
      (.error (.treeFull .utxo), ⟨some ut, some wt, nt, db⟩) := by
  simp only [applyGrovePatch, appendUTXOs_overflow cfg ut (some wt) nt db P.utxos hov]

theorem applyGrovePatch_withdrawal_full (cfg : GroveConfig) (ut wt : TreeData)
    (nt : Option NullifierTreeHandle) (db : DBState) (P : GrovePatch)
    (hfitU : ut.index + subTreePaddedLength cfg.utxoSubTreeSize P.utxos.length ≤ 2 ^ ut.depth)
    (hovW : 2 ^ wt.depth < wt.index + subTreePaddedLength cfg.withdrawalSubTreeSize P.withdrawals.length) :
    applyGrovePatch cfg ⟨some ut, some wt, nt, db⟩ P =
      (.error (.treeFull .withdrawal),
        ⟨some (appendLeaves cfg.utxoHasher ut (paddedLeaves cfg.utxoSubTreeSize P.utxos)),
          some wt, nt, db⟩) := by
  simp only [applyGrovePatch, appendUTXOs_fits cfg ut (some wt) nt db P.utxos hfitU,
    appendWithdrawals_overflow cfg
      (some (appendLeaves cfg.utxoHasher ut (paddedLeaves cfg.utxoSubTreeSize P.utxos))) wt nt
      (writeTreeMetadata cfg .utxo db
        (appendLeaves cfg.utxoHasher ut (paddedLeaves cfg.utxoSubTreeSize P.utxos)))
      P.withdrawals hovW]

theorem applyGrovePatch_fits (cfg : GroveConfig) (ut wt : TreeData)
    (nt : Option NullifierTreeHandle) (db : DBState) (P : GrovePatch)
    (hfitU : ut.index + subTreePaddedLength cfg.utxoSubTreeSize P.utxos.length ≤ 2 ^ ut.depth)
    (hfitW : wt.index + subTreePaddedLength cfg.withdrawalSubTreeSize P.withdrawals.length ≤ 2 ^ wt.depth) :
    ∃ gFin, applyGrovePatch cfg ⟨some ut, some wt, nt, db⟩ P =
        (.ok ((appendLeaves cfg.utxoHasher ut (paddedLeaves cfg.utxoSubTreeSize P.utxos)).id,
          (appendLeaves cfg.withdrawalHasher wt (paddedLeaves cfg.withdrawalSubTreeSize P.withdrawals)).id),
          gFin) ∧
      gFin.utxoTree = some (appendLeaves cfg.utxoHasher ut (paddedLeaves cfg.utxoSubTreeSize P.utxos)) ∧
      gFin.withdrawalTree =
        some (appendLeaves cfg.withdrawalHasher wt (paddedLeaves cfg.withdrawalSubTreeSize P.withdrawals)) ∧
      gFin.nullifierTree = nt ∧
      gFin.db.nullifiers = (match nt with
        | none => db.nullifiers
        | some _ => db.nullifiers ++ P.nullifiers) := by
  refine ⟨(applyGrovePatch cfg ⟨some ut, some wt, nt, db⟩ P).2, ?_, ?_, ?_, ?_, ?_⟩ <;>
    simp only [applyGrovePatch, appendUTXOs_fits cfg ut (some wt) nt db P.utxos hfitU,
      appendWithdrawals_fits cfg
        (some (appendLeaves cfg.utxoHasher ut (paddedLeaves cfg.utxoSubTreeSize P.utxos))) wt nt
        (writeTreeMetadata cfg .utxo db
          (appendLeaves cfg.utxoHasher ut (paddedLeaves cfg.utxoSubTreeSize P.utxos)))
        P.withdrawals hfitW]
  all_goals
    cases nt <;> cases hfs : cfg.fullSync <;>
      simp [markAsNullified, nullify, recordBootstrap, hfs, writeTreeMetadata_nullifiers]

theorem dryPatch_ok (cfg : GroveConfig) (ut wt : TreeData)
    (nt : Option NullifierTreeHandle) (db : DBState) (P : GrovePatch) :
    (dryPatch cfg ⟨some ut, some wt, nt, db⟩ P).1 = .ok
      { utxoTreeIndex :=
          (dryAppend cfg.utxoHasher ut (P.utxos.map fun l => { l with shouldTrack := false })).index
            + subTreePaddedLength cfg.utxoSubTreeSize P.utxos.length - P.utxos.length
        utxoTreeRoot :=
          (dryAppend cfg.utxoHasher ut (P.utxos.map fun l => { l with shouldTrack := false })).root
        withdrawalTreeIndex :=
          (dryAppend cfg.withdrawalHasher wt
            (P.withdrawals.map fun l => { l with shouldTrack := false })).index
            + subTreePaddedLength cfg.withdrawalSubTreeSize P.withdrawals.length
            - P.withdrawals.length
        withdrawalTreeRoot :=
          (dryAppend cfg.withdrawalHasher wt
            (P.withdrawals.map fun l => { l with shouldTrack := false })).root
        nullifierTreeRoot := nt.map fun nh =>
          dryRunNullify cfg.nullifierHasher nh.depth db P.nullifiers } := rfl

theorem getSnapshot_ok (cfg : GroveConfig) (g : GroveState) (a b : TreeData)
    (ha : g.utxoTree = some a) (hb : g.withdrawalTree = some b) :
    (getSnapshot cfg g).1 = .ok
      { utxoTreeIndex := a.index
        utxoTreeRoot := a.root
        withdrawalTreeIndex := b.index
        withdrawalTreeRoot := b.root
        nullifierTreeRoot := g.nullifierTree.map fun nh =>
          dryRunNullify cfg.nullifierHasher nh.depth g.db [] } := by
  simp only [getSnapshot, dryPatch, ha, hb]
  simp [dryAppend, appendLeaves, subTreePaddedLength_zero]

/-- C6: dryPatch is pure. For every Grove state and patch, the state dryPatch
returns is the input state, so a getSnapshot taken before equals a
getSnapshot taken after; the dryRunNullify it invokes computes a root without
changing the nullifier state. -/
theorem dryPatch_pure (cfg : GroveConfig) (g : GroveState) (P : GrovePatch) :
    (dryPatch cfg g P).2 = g ∧
      (getSnapshot cfg ((dryPatch cfg g P).2)).1 = (getSnapshot cfg g).1 := by
  have h2 : (dryPatch cfg g P).2 = g := by
    rcases hu : g.utxoTree with _ | ut
    · simp [dryPatch, hu]
    · rcases hw : g.withdrawalTree with _ | wt
      · simp [dryPatch, hu, hw]
      · simp [dryPatch, hu, hw]
  exact ⟨h2, by rw [h2]⟩

/-- C7: after constructing a Grove over an empty database and calling init,
getSnapshot reports the genesis root preHash[D] and index 0 for both the
UTXO and the Withdrawal tree. -/
theorem init_genesis_snapshot (cfg : GroveConfig) :
    ∃ s, (getSnapshot cfg (initGrove cfg {})).1 = .ok s ∧
      s.utxoTreeRoot = preHash cfg.utxoHasher cfg.utxoTreeDepth ∧
      s.utxoTreeIndex = 0 ∧
      s.withdrawalTreeRoot = preHash cfg.withdrawalHasher cfg.withdrawalTreeDepth ∧
      s.withdrawalTreeIndex = 0 :=
  ⟨_, getSnapshot_ok cfg (initGrove cfg {}) _ _ rfl rfl, rfl, rfl, rfl, rfl⟩

/-- C2 (amended): for every initialized Grove and patch, the reported
utxoTreeIndex equals dryIndex + paddedLen - rawLen where dryIndex is the
index returned by dryAppend over the raw utxos and paddedLen the sub-tree
padded length; this value equals the tree index after the padded batch, the
final index, and likewise for withdrawalTreeIndex. -/
theorem dryPatch_reported_index (cfg : GroveConfig) (ut wt : TreeData)
    (nt : Option NullifierTreeHandle) (db : DBState) (P : GrovePatch) :
    ∃ s, (dryPatch cfg ⟨some ut, some wt, nt, db⟩ P).1 = .ok s ∧
      s.utxoTreeIndex = (dryAppend cfg.utxoHasher ut P.utxos).index
        + subTreePaddedLength cfg.utxoSubTreeSize P.utxos.length - P.utxos.length ∧
      s.utxoTreeIndex = ut.index + subTreePaddedLength cfg.utxoSubTreeSize P.utxos.length ∧
      s.withdrawalTreeIndex = (dryAppend cfg.withdrawalHasher wt P.withdrawals).index
        + subTreePaddedLength cfg.withdrawalSubTreeSize P.withdrawals.length
        - P.withdrawals.length ∧
      s.withdrawalTreeIndex =
        wt.index + subTreePaddedLength cfg.withdrawalSubTreeSize P.withdrawals.length := by
  refine ⟨_, dryPatch_ok cfg ut wt nt db P, ?_, ?_, ?_, ?_⟩ <;>
    simp only [dryAppend, appendLeaves_index, List.length_map] <;> omega

/-- Counterexample for C2 as frozen: on the concrete grove groveT with a
single raw utxo, the reported utxoTreeIndex (2) is not the index where the
first padding leaf lives (tree index + raw length = 1); it is the final index
of the tree after applyGrovePatch applies the padded batch. -/
theorem dryPatch_reported_index_counterexample :
    (dryPatch cfgT groveT patchT).1 = .ok snapT ∧
    snapT.utxoTreeIndex ≠ (genesisT utxoTreeRowId).index + patchT.utxos.length ∧
    Option.map TreeData.index (applyGrovePatch cfgT groveT patchT).2.utxoTree =
      some snapT.utxoTreeIndex :=
  ⟨rfl, by decide, rfl⟩

/-- C1: for every initialized Grove whose trees satisfy the frontier
invariant and every patch that fits in both trees, the utxoTreeRoot and
withdrawalTreeRoot returned by dryPatch equal the committed roots observed
via getSnapshot after applyGrovePatch, even though dryPatch dry-appends only
the raw leaves while applyGrovePatch appends the batch padded with zero-hash
leaves to a multiple of the sub-tree size. -/
theorem dryPatch_predicts_applyGrovePatch (cfg : GroveConfig) (ut wt : TreeData)
    (nt : Option NullifierTreeHandle) (db : DBState) (P : GrovePatch)
    (hcu : Coherent cfg.utxoHasher ut) (hcw : Coherent cfg.withdrawalHasher wt)
    (hsu : 0 < cfg.utxoSubTreeSize) (hsw : 0 < cfg.withdrawalSubTreeSize)
    (hfu : ut.index + subTreePaddedLength cfg.utxoSubTreeSize P.utxos.length ≤ 2 ^ ut.depth)
    (hfw : wt.index + subTreePaddedLength cfg.withdrawalSubTreeSize P.withdrawals.length
      ≤ 2 ^ wt.depth) :
    ∃ s ids gFin sFin,
      (dryPatch cfg ⟨some ut, some wt, nt, db⟩ P).1 = .ok s ∧
      applyGrovePatch cfg ⟨some ut, some wt, nt, db⟩ P = (.ok ids, gFin) ∧
      (getSnapshot cfg gFin).1 = .ok sFin ∧
      sFin.utxoTreeRoot = s.utxoTreeRoot ∧
      sFin.withdrawalTreeRoot = s.withdrawalTreeRoot := by
  obtain ⟨gFin, hEq, hgu, hgw, hgn, hnl⟩ := applyGrovePatch_fits cfg ut wt nt db P hfu hfw
  refine ⟨_, _, gFin, _, dryPatch_ok cfg ut wt nt db P, hEq,
    getSnapshot_ok cfg gFin _ _ hgu hgw, ?_, ?_⟩
  · show (appendLeaves cfg.utxoHasher ut (paddedLeaves cfg.utxoSubTreeSize P.utxos)).root =
      (dryAppend cfg.utxoHasher ut (P.utxos.map fun l => { l with shouldTrack := false })).root
    rw [dryAppend, appendLeaves_map_track]
    have hlen := le_subTreePaddedLength cfg.utxoSubTreeSize P.utxos.length hsu
    have hb : ut.index + P.utxos.length +
        (subTreePaddedLength cfg.utxoSubTreeSize P.utxos.length - P.utxos.length)
        ≤ 2 ^ ut.depth := by omega
    exact appendLeaves_padding_root cfg.utxoHasher ut P.utxos _ hcu hb
  · show (appendLeaves cfg.withdrawalHasher wt
        (paddedLeaves cfg.withdrawalSubTreeSize P.withdrawals)).root =
      (dryAppend cfg.withdrawalHasher wt
        (P.withdrawals.map fun l => { l with shouldTrack := false })).root
    rw [dryAppend, appendLeaves_map_track]
    have hlen := le_subTreePaddedLength cfg.withdrawalSubTreeSize P.withdrawals.length hsw
    have hb : wt.index + P.withdrawals.length +
        (subTreePaddedLength cfg.withdrawalSubTreeSize P.withdrawals.length
          - P.withdrawals.length) ≤ 2 ^ wt.depth := by omega
    exact appendLeaves_padding_root cfg.withdrawalHasher wt P.withdrawals _ hcw hb

/-- Witness for C1 at the concrete light-mode grove over genesis trees and
the patch with one utxo and one withdrawal leaf. -/
theorem dryPatch_predicts_applyGrovePatch_witness :
    Coherent cfgT.utxoHasher (genesisT utxoTreeRowId) ∧
    (∃ s ids gFin sFin,
      (dryPatch cfgT ⟨some (genesisT utxoTreeRowId), some (genesisT withdrawalTreeRowId),
        none, {}⟩ patchT).1 = .ok s ∧
      applyGrovePatch cfgT ⟨some (genesisT utxoTreeRowId), some (genesisT withdrawalTreeRowId),
        none, {}⟩ patchT = (.ok ids, gFin) ∧
      (getSnapshot cfgT gFin).1 = .ok sFin ∧
      sFin.utxoTreeRoot = s.utxoTreeRoot ∧
      sFin.withdrawalTreeRoot = s.withdrawalTreeRoot) :=
  ⟨by decide, dryPatch_predicts_applyGrovePatch cfgT (genesisT utxoTreeRowId)
    (genesisT withdrawalTreeRowId) none {} patchT (by decide) (by decide) (by decide)
    (by decide) (by decide) (by decide)⟩

/-- C3: on an initialized Grove, applyGrovePatch fails with a treeFull error
naming a species exactly when some species overflows, a treeFull error always
names an overflowing species, the named species' tree (root, index, siblings)
is unchanged on that failure (for the utxo species the whole state is
unchanged, and the staged database writes are discarded in both cases), and
after any successful append no tree index exceeds 2^D. -/
theorem applyGrovePatch_treeFull (cfg : GroveConfig) (ut wt : TreeData)
    (nt : Option NullifierTreeHandle) (db : DBState) (P : GrovePatch)
    (hsu : 0 < cfg.utxoSubTreeSize) (hsw : 0 < cfg.withdrawalSubTreeSize) :
    ((∃ sp gE, applyGrovePatch cfg ⟨some ut, some wt, nt, db⟩ P =
        (.error (.treeFull sp), gE)) ↔
      (2 ^ ut.depth < ut.index + subTreePaddedLength cfg.utxoSubTreeSize P.utxos.length ∨
        2 ^ wt.depth < wt.index +
          subTreePaddedLength cfg.withdrawalSubTreeSize P.withdrawals.length)) ∧
    (∀ gE, applyGrovePatch cfg ⟨some ut, some wt, nt, db⟩ P =
        (.error (.treeFull .utxo), gE) →
      2 ^ ut.depth < ut.index + subTreePaddedLength cfg.utxoSubTreeSize P.utxos.length ∧
        gE = ⟨some ut, some wt, nt, db⟩) ∧
    (∀ gE, applyGrovePatch cfg ⟨some ut, some wt, nt, db⟩ P =
        (.error (.treeFull .withdrawal), gE) →
      2 ^ wt.depth < wt.index +
          subTreePaddedLength cfg.withdrawalSubTreeSize P.withdrawals.length ∧
        gE.withdrawalTree = some wt ∧ gE.db = db) ∧
    (∀ r gFin, applyGrovePatch cfg ⟨some ut, some wt, nt, db⟩ P = (.ok r, gFin) →
      ∃ ut' wt', gFin.utxoTree = some ut' ∧ gFin.withdrawalTree = some wt' ∧
        ut'.index ≤ 2 ^ ut'.depth ∧ wt'.index ≤ 2 ^ wt'.depth) := by
  by_cases hU : ut.index + subTreePaddedLength cfg.utxoSubTreeSize P.utxos.length
      ≤ 2 ^ ut.depth
  · by_cases hW : wt.index + subTreePaddedLength cfg.withdrawalSubTreeSize
        P.withdrawals.length ≤ 2 ^ wt.depth
    · obtain ⟨gFin, hEq, hgu, hgw, _, _⟩ := applyGrovePatch_fits cfg ut wt nt db P hU hW
      refine ⟨?_, ?_, ?_, ?_⟩
      · constructor
        · rintro ⟨sp, gE, hsp⟩
          rw [hEq] at hsp
          exact absurd hsp (by simp)
        · intro hor
          omega
      · intro gE hgE
        rw [hEq] at hgE
        exact absurd hgE (by simp)
      · intro gE hgE
        rw [hEq] at hgE
        exact absurd hgE (by simp)
      · intro r gFin' hgE
        rw [hEq] at hgE
        simp only [Prod.mk.injEq, Except.ok.injEq] at hgE
        obtain ⟨-, h2⟩ := hgE
        subst h2
        refine ⟨_, _, hgu, hgw, ?_, ?_⟩
        · rw [appendLeaves_index, appendLeaves_depth, paddedLeaves_length _ _ hsu]
          exact hU
        · rw [appendLeaves_index, appendLeaves_depth, paddedLeaves_length _ _ hsw]
          exact hW
    · push_neg at hW
      have hred := applyGrovePatch_withdrawal_full cfg ut wt nt db P hU hW
      refine ⟨?_, ?_, ?_, ?_⟩
      · exact ⟨fun _ => Or.inr hW, fun _ => ⟨.withdrawal, _, hred⟩⟩
      · intro gE hgE
        rw [hred] at hgE
        exact absurd hgE (by simp)
      · intro gE hgE
        rw [hred] at hgE
        simp only [Prod.mk.injEq, Except.error.injEq] at hgE
        obtain ⟨-, h2⟩ := hgE
        subst h2
        exact ⟨hW, rfl, rfl⟩
      · intro r gFin hgE
        rw [hred] at hgE
        exact absurd hgE (by simp)
  · push_neg at hU
    have hred := applyGrovePatch_utxo_full cfg ut wt nt db P hU
    refine ⟨?_, ?_, ?_, ?_⟩
    · exact ⟨fun _ => Or.inl hU, fun _ => ⟨.utxo, _, hred⟩⟩
    · intro gE hgE
      rw [hred] at hgE
      simp only [Prod.mk.injEq, Except.error.injEq] at hgE
      obtain ⟨-, h2⟩ := hgE
      exact ⟨hU, h2.symm⟩
    · intro gE hgE
      rw [hred] at hgE
      exact absurd hgE (by simp)
    · intro r gFin hgE
      rw [hred] at hgE
      exact absurd hgE (by simp)

/-- Witness for C3: on the grove whose utxo tree is full (index 4 of maximum
4), appending one more leaf fails with the treeFull error. -/
theorem applyGrovePatch_treeFull_witness :
    ∃ sp gE, applyGrovePatch cfgT
        ⟨some fullTreeT, some (genesisT withdrawalTreeRowId), none, {}⟩ patchT =
      (.error (.treeFull sp), gE) :=
  ((applyGrovePatch_treeFull cfgT fullTreeT (genesisT withdrawalTreeRowId) none {} patchT
    (by decide) (by decide)).1).mpr (Or.inl (by decide))

/-- C4 (amended): applyBootstrap requires startingLeafProof for both proofs
and, when the UTXO proof is valid but the withdrawal proof is invalid, it
fails with InvalidBootstrapProof, neither in-memory tree is replaced and no
withdrawal LightTree row is persisted; however the UTXO LightTree row HAS
already been persisted, because bootstrapUtxoTree upserts it into the
database before the withdrawal proof is checked. -/
theorem applyBootstrap_partial_persist (cfg : GroveConfig) (g : GroveState)
    (up wp : MerkleProof)
    (hvu : startingLeafProof cfg.utxoHasher up.root up.index up.siblings = true)
    (hvw : startingLeafProof cfg.withdrawalHasher wp.root wp.index wp.siblings = false) :
    ∃ gE, applyBootstrap cfg g up wp = (.error .invalidBootstrapProof, gE) ∧
      gE.utxoTree = g.utxoTree ∧
      gE.withdrawalTree = g.withdrawalTree ∧
      gE.db.withdrawalTreeRow = g.db.withdrawalTreeRow ∧
      gE.db.utxoTreeRow = some
        { root := up.root, index := up.index, siblings := up.siblings
          start := up.index, endIndex := up.index } := by
  have hred : applyBootstrap cfg g up wp =
      (.error .invalidBootstrapProof,
        { g with
          db := { g.db with
                  utxoTreeRow := some ⟨up.root, up.index, up.siblings, up.index, up.index⟩ } }) := by
    simp [applyBootstrap, bootstrapUtxoTree, bootstrapWithdrawalTree, hvu, hvw]
  exact ⟨_, hred, rfl, rfl, rfl, rfl⟩

/-- Counterexample for C4 as frozen: a fresh Grove given a valid UTXO
starting proof and an invalid withdrawal proof fails, yet the UTXO LightTree
row has been persisted, while the in-memory trees were not replaced. -/
theorem applyBootstrap_partial_persist_counterexample :
    (applyBootstrap cfgT {} proofOkT proofBadT).1 = .error .invalidBootstrapProof ∧
    (applyBootstrap cfgT {} proofOkT proofBadT).2.db.utxoTreeRow ≠ none ∧
    (applyBootstrap cfgT {} proofOkT proofBadT).2.utxoTree = none :=
  ⟨rfl, by decide, rfl⟩

/-- Witness for C4 at the concrete proofs proofOkT (valid) and proofBadT
(invalid). -/
theorem applyBootstrap_partial_persist_witness :
    startingLeafProof cfgT.utxoHasher proofOkT.root proofOkT.index proofOkT.siblings = true ∧
    (∃ gE, applyBootstrap cfgT {} proofOkT proofBadT = (.error .invalidBootstrapProof, gE) ∧
      gE.utxoTree = ({} : GroveState).utxoTree ∧
      gE.withdrawalTree = ({} : GroveState).withdrawalTree ∧
      gE.db.withdrawalTreeRow = ({} : GroveState).db.withdrawalTreeRow ∧
      gE.db.utxoTreeRow = some
        { root := proofOkT.root, index := proofOkT.index, siblings := proofOkT.siblings
          start := proofOkT.index, endIndex := proofOkT.index }) :=
  ⟨by decide, applyBootstrap_partial_persist cfgT {} proofOkT proofBadT (by decide) (by decide)⟩

/-- C8 (amended): on an uninitialized Grove every mutation and proof query
fails, but only applyGrovePatch fails with the notInitialized error; dryPatch
and getSnapshot raise a TypeError from dereferencing the undefined tree, and
the proof queries fail with leafNotFound, leafNotCommitted or a TypeError
according to the database row, never with notInitialized. -/
theorem uninitialized_errors (cfg : GroveConfig) (nt : Option NullifierTreeHandle)
    (db : DBState) (P : GrovePatch) :
    applyGrovePatch cfg ⟨none, none, nt, db⟩ P =
      (.error .notInitialized, ⟨none, none, nt, db⟩) ∧
    (dryPatch cfg ⟨none, none, nt, db⟩ P).1 = .error .jsTypeError ∧
    (getSnapshot cfg ⟨none, none, nt, db⟩).1 = .error .jsTypeError ∧
    (∀ hsh, utxoMerkleProof cfg ⟨none, none, nt, db⟩ hsh ≠ .error .notInitialized ∧
      ∀ p, utxoMerkleProof cfg ⟨none, none, nt, db⟩ hsh ≠ .ok p) ∧
    (∀ nh i, withdrawalMerkleProof cfg ⟨none, none, nt, db⟩ nh i ≠ .error .notInitialized ∧
      ∀ p, withdrawalMerkleProof cfg ⟨none, none, nt, db⟩ nh i ≠ .ok p) := by
  refine ⟨rfl, rfl, rfl, ?_, ?_⟩
  · intro hsh
    rcases hf : db.utxos.find? (fun u => u.hash == hsh) with _ | u
    · constructor
      · simp [utxoMerkleProof, hf]
      · intro p
        simp [utxoMerkleProof, hf]
    · rcases hidx : u.index with _ | idx
      · constructor
        · simp [utxoMerkleProof, hf, hidx]
        · intro p
          simp [utxoMerkleProof, hf, hidx]
      · constructor
        · simp [utxoMerkleProof, hf, hidx]
        · intro p
          simp [utxoMerkleProof, hf, hidx]
  · intro nh i
    rcases hf : db.withdrawals.find? (fun w => w.withdrawalHash == nh) with _ | w
    · constructor
      · simp [withdrawalMerkleProof, hf]
      · intro p
        simp [withdrawalMerkleProof, hf]
    · rcases hli : (match i with | some j => some j | none => w.index) with _ | li
      · constructor
        · simp [withdrawalMerkleProof, hf, hli]
        · intro p
          simp [withdrawalMerkleProof, hf, hli]
      · constructor
        · simp [withdrawalMerkleProof, hf, hli]
        · intro p
          simp [withdrawalMerkleProof, hf, hli]

/-- Counterexample for C8 as frozen: on a concrete uninitialized Grove,
dryPatch fails, but with the TypeError of dereferencing the undefined tree,
not with the notInitialized error the claim requires. -/
theorem uninitialized_errors_counterexample :
    (dryPatch cfgT {} patchT).1 = .error .jsTypeError ∧
    GroveError.jsTypeError ≠ GroveError.notInitialized :=
  ⟨rfl, by decide⟩

/-- Witness for C8 at a concrete uninitialized grove. -/
theorem uninitialized_errors_witness :
    applyGrovePatch cfgT ⟨none, none, none, {}⟩ patchT =
      (.error .notInitialized, ⟨none, none, none, {}⟩) :=
  (uninitialized_errors cfgT none {} patchT).1

/-- C9: markAsNullified on a Grove without a nullifier tree is a no-op that
does not raise, and applyGrovePatch in that light mode still applies the
patch: both appends succeed (given the batches fit), the resulting state
still has no nullifier tree, and no nullifier rows are written. -/
theorem markAsNullified_light_noop (cfg : GroveConfig) (ut wt : TreeData)
    (db : DBState) (P : GrovePatch)
    (hfu : ut.index + subTreePaddedLength cfg.utxoSubTreeSize P.utxos.length ≤ 2 ^ ut.depth)
    (hfw : wt.index + subTreePaddedLength cfg.withdrawalSubTreeSize P.withdrawals.length
      ≤ 2 ^ wt.depth) :
    (∀ g0 ns, g0.nullifierTree = none → markAsNullified g0 ns = g0) ∧
    (∃ ids gFin, applyGrovePatch cfg ⟨some ut, some wt, none, db⟩ P = (.ok ids, gFin) ∧
      gFin.nullifierTree = none ∧ gFin.db.nullifiers = db.nullifiers) := by
  constructor
  · intro g0 ns h0
    simp [markAsNullified, h0]
  · obtain ⟨gFin, hEq, _, _, hgn, hnl⟩ := applyGrovePatch_fits cfg ut wt none db P hfu hfw
    exact ⟨_, gFin, hEq, hgn, hnl⟩

/-- Witness for C9 on the genesis grove with a patch carrying nullifiers. -/
theorem markAsNullified_light_noop_witness :
    ∃ ids gFin, applyGrovePatch cfgT
        ⟨some (genesisT utxoTreeRowId), some (genesisT withdrawalTreeRowId), none, {}⟩ patchN =
      (.ok ids, gFin) ∧
      gFin.nullifierTree = none ∧ gFin.db.nullifiers = ({} : DBState).nullifiers :=
  (markAsNullified_light_noop cfgT (genesisT utxoTreeRowId) (genesisT withdrawalTreeRowId)
    {} patchN (by decide) (by decide)).2

/-- C5: on an initialized Grove, utxoMerkleProof fails with leafNotFound when
no Utxo row with the queried hash exists, with leafNotCommitted when the row
exists but its index is null, with proofUnavailable when the reconstructed
proof does not satisfy verifyProof, and otherwise returns a proof accepted by
verifyProof. -/
theorem utxoMerkleProof_cases (cfg : GroveConfig) (g : GroveState) (t : TreeData)
    (hinit : g.utxoTree = some t) (hash : Nat) :
    (g.db.utxos.find? (fun u => u.hash == hash) = none →
      utxoMerkleProof cfg g hash = .error .leafNotFound) ∧
    (∀ u, g.db.utxos.find? (fun u => u.hash == hash) = some u → u.index = none →
      utxoMerkleProof cfg g hash = .error .leafNotCommitted) ∧
    (∀ u idx, g.db.utxos.find? (fun u => u.hash == hash) = some u → u.index = some idx →
      verifyProof cfg.utxoHasher (reconstructProof cfg.utxoHasher cfg.utxoTreeDepth t.root
        (getCachedSiblings g.db cfg.utxoTreeDepth t.id idx) idx u.hash) = false →
      utxoMerkleProof cfg g hash = .error .proofUnavailable) ∧
    (∀ u idx, g.db.utxos.find? (fun u => u.hash == hash) = some u → u.index = some idx →
      verifyProof cfg.utxoHasher (reconstructProof cfg.utxoHasher cfg.utxoTreeDepth t.root
        (getCachedSiblings g.db cfg.utxoTreeDepth t.id idx) idx u.hash) = true →
      utxoMerkleProof cfg g hash = .ok (reconstructProof cfg.utxoHasher cfg.utxoTreeDepth t.root
        (getCachedSiblings g.db cfg.utxoTreeDepth t.id idx) idx u.hash)) ∧
    (∀ p, utxoMerkleProof cfg g hash = .ok p → verifyProof cfg.utxoHasher p = true) := by
  refine ⟨?_, ?_, ?_, ?_, ?_⟩
  · intro hf
    simp [utxoMerkleProof, hf]
  · intro u hf hidx
    simp [utxoMerkleProof, hf, hidx]
  · intro u idx hf hidx hv
    simp [utxoMerkleProof, hf, hidx, hinit, hv]
  · intro u idx hf hidx hv
    simp [utxoMerkleProof, hf, hidx, hinit, hv]
  · intro p hp
    rcases hf : g.db.utxos.find? (fun u => u.hash == hash) with _ | u
    · simp [utxoMerkleProof, hf] at hp
    · rcases hidx : u.index with _ | idx
      · simp [utxoMerkleProof, hf, hidx] at hp
      · simp only [utxoMerkleProof, hf, hidx, hinit] at hp
        split at hp
        next hv =>
          simp only [Except.ok.injEq] at hp
          subst hp
          exact hv
        next hv =>
          simp at hp

/-- Witness for C5 on the grove holding a committed Utxo row for the empty
leaf at index 0: the query actually succeeds, returning the reconstructed
proof (concretely root 6, index 0, leaf 0, siblings [0, 1]), and that proof
satisfies verifyProof. -/
theorem utxoMerkleProof_cases_witness :
    groveProofT.utxoTree = some (genesisT utxoTreeRowId) ∧
    utxoMerkleProof cfgT groveProofT 0 =
      .ok (reconstructProof cfgT.utxoHasher cfgT.utxoTreeDepth (genesisT utxoTreeRowId).root
        (getCachedSiblings groveProofT.db cfgT.utxoTreeDepth (genesisT utxoTreeRowId).id 0) 0 0) ∧
    utxoMerkleProof cfgT groveProofT 0 =
      .ok { root := 6, index := 0, leaf := 0, siblings := [0, 1] } ∧
    verifyProof cfgT.utxoHasher { root := 6, index := 0, leaf := 0, siblings := [0, 1] } = true ∧
    (∀ p, utxoMerkleProof cfgT groveProofT 0 = .ok p →
      verifyProof cfgT.utxoHasher p = true) :=
  ⟨rfl,
   (utxoMerkleProof_cases cfgT groveProofT (genesisT utxoTreeRowId) rfl 0).2.2.2.1
     { hash := 0, index := some 0 } 0 (by decide) rfl (by decide),
   rfl,
   by decide,
   (utxoMerkleProof_cases cfgT groveProofT (genesisT utxoTreeRowId) rfl 0).2.2.2.2⟩

/-- C10: for every Withdrawal row found by withdrawalMerkleProof, a
caller-supplied index takes precedence over the stored committed index: the
proof is constructed at the supplied index even when it differs from the
stored one, a supplied index never yields the leafNotCommitted error, and
leafNotCommitted is raised exactly when no index is supplied and the stored
index is null. -/
theorem withdrawalMerkleProof_index_precedence (cfg : GroveConfig) (g : GroveState)
    (w : WithdrawalRow) (noteHash : Nat)
    (hfind : g.db.withdrawals.find? (fun x => x.withdrawalHash == noteHash) = some w) :
    (∀ i t, g.withdrawalTree = some t →
      withdrawalMerkleProof cfg g noteHash (some i) =
        (if verifyProof cfg.withdrawalHasher
            (reconstructProof cfg.withdrawalHasher cfg.withdrawalTreeDepth t.root
              (getCachedSiblings g.db cfg.withdrawalTreeDepth t.id i) i noteHash) then
          .ok (reconstructProof cfg.withdrawalHasher cfg.withdrawalTreeDepth t.root
            (getCachedSiblings g.db cfg.withdrawalTreeDepth t.id i) i noteHash)
        else .error .proofUnavailable) ∧
      (reconstructProof cfg.withdrawalHasher cfg.withdrawalTreeDepth t.root
        (getCachedSiblings g.db cfg.withdrawalTreeDepth t.id i) i noteHash).index = i) ∧
    (∀ i, withdrawalMerkleProof cfg g noteHash (some i) ≠ .error .leafNotCommitted) ∧
    (∀ idxArg, withdrawalMerkleProof cfg g noteHash idxArg = .error .leafNotCommitted ↔
      idxArg = none ∧ w.index = none) := by
  refine ⟨?_, ?_, ?_⟩
  · intro i t ht
    constructor
    · simp [withdrawalMerkleProof, hfind, ht]
    · rfl
  · intro i
    rcases ht : g.withdrawalTree with _ | t
    · simp [withdrawalMerkleProof, hfind, ht]
    · simp only [withdrawalMerkleProof, hfind, ht]
      split <;> simp
  · intro idxArg
    rcases idxArg with _ | i
    · rcases hwi : w.index with _ | si
      · simp [withdrawalMerkleProof, hfind, hwi]
      · rcases ht : g.withdrawalTree with _ | t
        · simp [withdrawalMerkleProof, hfind, hwi, ht]
        · simp only [withdrawalMerkleProof, hfind, hwi, ht]
          constructor
          · intro hcon
            split at hcon <;> simp at hcon
          · rintro ⟨-, hbad⟩
            simp [hwi] at hbad
    · rcases ht : g.withdrawalTree with _ | t
      · simp [withdrawalMerkleProof, hfind, ht]
      · simp only [withdrawalMerkleProof, hfind, ht]
        constructor
        · intro hcon
          split at hcon <;> simp at hcon
        · rintro ⟨hbad, -⟩
          simp at hbad

/-- Witness for C10 on a grove whose Withdrawal row stores index 3 while the
caller supplies a different index: no leafNotCommitted error is possible with
a supplied index. -/
theorem withdrawalMerkleProof_index_precedence_witness :
    groveWdT.db.withdrawals.find? (fun x => x.withdrawalHash == 0) =
      some { withdrawalHash := 0, index := some 3 } ∧
    (∀ i, withdrawalMerkleProof cfgT groveWdT 0 (some i) ≠ .error .leafNotCommitted) :=
  ⟨rfl, (withdrawalMerkleProof_index_precedence cfgT groveWdT
    { withdrawalHash := 0, index := some 3 } 0 rfl).2.1⟩
